import Mathlib

/-!
# game-bone: dice resolver, face table, roll history and roll session

A shallow embedding of `src/main.js` (class `Game`), `src/dice.js`
(class `DiceManager`) and the arena constants of `src/physics.js`.

The resolver `getDiceValue` is written over any number type with `+`, `-`,
`*`, unary minus, the literals 0, 1, 2 and a decidable `<`, in the order in
which the source and three.js apply them, and nothing is assumed of these
operations: IEEE doubles are one such type, an ordered field is another. The
start positions and the roll session are stated over a linearly ordered field
`K` (the rationals for evaluation).
-/

namespace GameBone

/-! ## Vectors and quaternions (the part of three.js that `getDiceValue` uses) -/

/-- A `THREE.Vector3`. -/
structure Vec3 (K : Type) where
  x : K
  y : K
  z : K
deriving DecidableEq, Repr

/-- A `THREE.Quaternion`, fields in the order three.js names them. -/
structure Quat (K : Type) where
  x : K
  y : K
  z : K
  w : K
deriving DecidableEq, Repr

section Geometry

variable {K : Type} [Add K] [Sub K] [Mul K] [Neg K] [OfNat K 0] [OfNat K 1] [OfNat K 2]
  [LT K] [DecidableRel (fun a b : K => a < b)]

/-- The method `Vector3.negate`, used to name the opposite direction. -/
def Vec3.negate (v : Vec3 K) : Vec3 K := ⟨-v.x, -v.y, -v.z⟩

/-- The method `Vector3.dot`. -/
def Vec3.dot (a b : Vec3 K) : K := a.x * b.x + a.y * b.y + a.z * b.z

/-- The method `Vector3.applyQuaternion` of three.js (current formulation):
`t = 2 * cross(q.xyz, v)`, result `v + q.w * t + cross(q.xyz, t)`, with the
operations in the order of the library's source. -/
def Vec3.applyQuaternion (v : Vec3 K) (q : Quat K) : Vec3 K :=
  let tx := 2 * (q.y * v.z - q.z * v.y)
  let ty := 2 * (q.z * v.x - q.x * v.z)
  let tz := 2 * (q.x * v.y - q.y * v.x)
  ⟨v.x + q.w * tx + q.y * tz - q.z * ty,
   v.y + q.w * ty + q.z * tx - q.x * tz,
   v.z + q.w * tz + q.x * ty - q.y * tx⟩

/-! ## `Game.getDiceValue` (src/main.js, lines 209-235) -/

/-- The array `directions` of `getDiceValue`: +X, -X, +Y, -Y, +Z, -Z. -/
def directions : List (Vec3 K) :=
  [⟨1, 0, 0⟩, ⟨-1, 0, 0⟩, ⟨0, 1, 0⟩, ⟨0, -1, 0⟩, ⟨0, 0, 1⟩, ⟨0, 0, -1⟩]

/-- The array `faceValues` of `getDiceValue`. -/
def faceValues : List Nat := [2, 5, 3, 4, 1, 6]

/-- World up, the vector `new THREE.Vector3(0, 1, 0)` of the loop body. -/
def worldUp : Vec3 K := ⟨0, 1, 0⟩

/-- The value `dot` computed in the loop body for direction `dir`. -/
def upDot (q : Quat K) (dir : Vec3 K) : K :=
  (dir.applyQuaternion q).dot worldUp

/-- One run of the `forEach` callback on the pair `(maxDot, result)`. -/
def resolveStep (q : Quat K) (acc : K × Nat) (entry : Nat × Vec3 K) : K × Nat :=
  let dot := upDot q entry.2
  if dot > acc.1 then (dot, faceValues.getD entry.1 0) else acc

/-- The pair `(maxDot, result)` after the loop over `directions`, started
from `maxDot = -1`, `result = 1`. -/
def resolveLoop (q : Quat K) : K × Nat :=
  (directions.enum).foldl (resolveStep q) (-1, 1)

/-- The method `Game.getDiceValue`, as a function of `mesh.quaternion`. -/
def getDiceValue (q : Quat K) : Nat := (resolveLoop q).2

end Geometry

/-! ## `DiceManager` (src/dice.js) -/

/-- A canvas texture, kept as what `createDiceTextures` draws on it: the
background fill, the pip fill, and the centre of every pip, one entry for each
run of the `points[i].forEach` callback. -/
structure Texture where
  background : String
  pipColor : String
  pips : List (Nat × Nat)
deriving DecidableEq, Repr

/-- The table `points` of `createDiceTextures`: entry `i` lists the pip centres
of the face with value `i`; entry 0 is the unused empty face. -/
def points : List (List (Nat × Nat)) :=
  [ [],
    [(512, 512)],
    [(256, 256), (768, 768)],
    [(256, 256), (512, 512), (768, 768)],
    [(256, 256), (768, 256), (256, 768), (768, 768)],
    [(256, 256), (768, 256), (512, 512), (256, 768), (768, 768)],
    [(256, 256), (768, 256), (256, 512), (768, 512), (256, 768), (768, 768)] ]

/-- The test `isWhite` of `createDiceTextures`. -/
def isWhite (color : String) : Bool :=
  color.toLower == "#ffffff" || color.toLower == "white"

/-- The method `DiceManager.createDiceTextures`: the loop `for i = 1 .. 6`
pushes the texture drawn from `points[i]`. -/
def createDiceTextures (color : String) : List Texture :=
  (List.range' 1 6).foldl
    (fun textures i =>
      textures ++ [{ background := if isWhite color then "#fefefe" else color,
                     pipColor := if isWhite color then "#111111" else "#ffffff",
                     pips := points.getD i [] }])
    []

/-- The array `faceOrderMapping` of `createDiceMesh`. -/
def faceOrderMapping : List Nat := [2, 5, 3, 4, 1, 6]

/-- A `MeshStandardMaterial`; `map` is `textures[val - 1]`, which JavaScript
leaves undefined (`none`) outside the array. -/
structure Material where
  map : Option Texture
deriving DecidableEq, Repr

/-- A `THREE.Mesh` of a die: its six materials, in the order in which
`BoxGeometry` uses them (+X, -X, +Y, -Y, +Z, -Z), and its transform. -/
structure Mesh (K : Type) where
  materials : List Material
  position : Vec3 K
  quaternion : Quat K

/-- The state of a `DiceManager`. -/
structure DiceManager where
  color : String
  textures : List Texture

/-- The constructor of `DiceManager`. -/
def DiceManager.new (color : String) : DiceManager :=
  { color := color, textures := createDiceTextures color }

/-- The method `DiceManager.updateDiceColor`. -/
def DiceManager.updateDiceColor (_m : DiceManager) (color : String) : DiceManager :=
  { color := color, textures := createDiceTextures color }

/-- The method `DiceManager.createDiceMesh`; a new mesh sits at the origin with
the identity quaternion. -/
def DiceManager.createDiceMesh {K : Type} [LinearOrderedField K] (m : DiceManager) : Mesh K :=
  { materials := faceOrderMapping.map (fun val => { map := m.textures[val - 1]? }),
    position := ⟨0, 0, 0⟩,
    quaternion := ⟨0, 0, 0, 1⟩ }

/-! ## The arena of `PhysicsWorld.setupWalls` (src/physics.js) -/

section Arena

variable {K : Type} [LinearOrderedField K]

/-- The constant `size = 4.5` of `setupWalls`. -/
def wallSize : K := 9 / 2

/-- The positions `pos` of the five planes of `setupWalls`: the walls at
`x = ±size` and `z = ±size`, and the ceiling at `y = 10`. -/
def wallPositions : List (Vec3 K) :=
  [⟨wallSize, 0, 0⟩, ⟨-wallSize, 0, 0⟩, ⟨0, 0, wallSize⟩, ⟨0, 0, -wallSize⟩, ⟨0, 10, 0⟩]

/-- The height of the ceiling plane, the last entry of `walls`. -/
def ceilingY : K := 10

/-- A point strictly between the four walls, above the ground plane `y = 0`
of `setupGround` and below the ceiling. -/
def insideArena (p : Vec3 K) : Prop :=
  |p.x| < wallSize ∧ |p.z| < wallSize ∧ 0 < p.y ∧ p.y < ceilingY

end Arena

/-! ## `Game` (src/main.js): history and roll session -/

/-- The method `Game.addHistory` on the array `history`: `unshift(value)`, then
`pop()` when the length exceeds 10. -/
def addHistory (history : List Nat) (value : Nat) : List Nat :=
  let h := value :: history
  if h.length > 10 then h.dropLast else h

section Session

variable {K : Type} [LinearOrderedField K]

/-- A cannon-es body of a die, with the arguments of the last `applyImpulse`. -/
structure Body (K : Type) where
  position : Vec3 K
  quaternion : Quat K
  impulse : Vec3 K
  impulsePoint : Vec3 K

/-- An entry `{ mesh, body }` of `diceElements`. -/
structure DiceElement (K : Type) where
  mesh : Mesh K
  body : Body K

/-- The fields of `Game` that the roll session reads and writes, the text of
`#total-score .value` as the number it shows, the `disabled` flag of the roll
button, and the number of `setTimeout` callbacks scheduled and not yet run. -/
structure Game (K : Type) where
  diceCount : Int
  diceColor : String
  diceElements : List (DiceElement K)
  isRolling : Bool
  history : List Nat
  diceManager : DiceManager
  rollBtnDisabled : Bool
  totalScore : Nat
  pendingTimers : Nat

/-- The colour `'#ff4757'` of the constructor. -/
def defaultColor : String := "#ff4757"

/-- The state the constructor of `Game` leaves. The page supplies the first
text of the total and the first `disabled` flag of the button. -/
def Game.new (score : Nat) (disabled : Bool) : Game K :=
  { diceCount := 1
    diceColor := defaultColor
    diceElements := []
    isRolling := false
    history := []
    diceManager := DiceManager.new defaultColor
    rollBtnDisabled := disabled
    totalScore := score
    pendingTimers := 0 }

/-- The method `PhysicsWorld.addDiceBody`: a body at rest at the origin. -/
def addDiceBody : Body K :=
  { position := ⟨0, 0, 0⟩, quaternion := ⟨0, 0, 0, 1⟩,
    impulse := ⟨0, 0, 0⟩, impulsePoint := ⟨0, 0, 0⟩ }

/-- The body of the `for` loop of `rollDice` for die `i`. `rand j` is the
`j`-th value `Math.random()` returns during the call (eleven per die, in the
order the source evaluates them) and `setFromEuler` is the function of that
name of cannon-es. -/
def spawnDie (setFromEuler : K → K → K → Quat K) (rand : Nat → K)
    (dm : DiceManager) (i : Nat) : DiceElement K :=
  let r := fun j => rand (11 * i + j)
  let mesh : Mesh K := dm.createDiceMesh
  let body : Body K := addDiceBody
  let body := { body with position := ⟨(r 0 - 1 / 2) * 4, 5 + (i : K) * 2, (r 1 - 1 / 2) * 4⟩ }
  let body := { body with quaternion := setFromEuler (r 2 * 10) (r 3 * 10) (r 4 * 10) }
  let force := 10 + r 5 * 5
  let body := { body with
    impulse := ⟨(r 6 - 1 / 2) * force, force, (r 7 - 1 / 2) * force⟩
    impulsePoint := ⟨(r 8 - 1 / 2) * (1 / 5), (r 9 - 1 / 2) * (1 / 5), (r 10 - 1 / 2) * (1 / 5)⟩ }
  { mesh := mesh, body := body }

/-- The method `Game.resetDice`. -/
def resetDice (g : Game K) : Game K :=
  { g with diceElements := [], isRolling := false, rollBtnDisabled := false, totalScore := 0 }

/-- The method `Game.rollDice`: nothing when `isRolling`; otherwise
`resetDice`, the flags, the loop `for (i = 0; i < diceCount; i++)` that pushes
one element per run, and one more `setTimeout`. -/
def rollDice (setFromEuler : K → K → K → Quat K) (rand : Nat → K) (g : Game K) : Game K :=
  if g.isRolling then g
  else
    let g := resetDice g
    let g := { g with isRolling := true, rollBtnDisabled := true }
    let elems := (List.range g.diceCount.toNat).foldl
      (fun els i => els ++ [spawnDie setFromEuler rand g.diceManager i]) g.diceElements
    { g with diceElements := elems, pendingTimers := g.pendingTimers + 1 }

/-- The method `Game.checkResult`. -/
def checkResult (g : Game K) : Game K :=
  let total := g.diceElements.foldl (fun total d => total + getDiceValue d.mesh.quaternion) 0
  { g with totalScore := total, history := addHistory g.history total,
           isRolling := false, rollBtnDisabled := false }

/-- The copy loop of `Game.animate` after `physics.update()`; `phys i` is the
position and quaternion the physics engine gives the body of die `i`. -/
def animate (phys : Nat → Vec3 K × Quat K) (g : Game K) : Game K :=
  { g with diceElements := g.diceElements.enum.map (fun e =>
      let body := { e.2.body with position := (phys e.1).1, quaternion := (phys e.1).2 }
      { mesh := { e.2.mesh with position := body.position, quaternion := body.quaternion },
        body := body }) }

/-- The click handler of `#inc-dice`. -/
def incDice (g : Game K) : Game K :=
  if g.diceCount < 5 then { g with diceCount := g.diceCount + 1 } else g

/-- The click handler of `#dec-dice`. -/
def decDice (g : Game K) : Game K :=
  if g.diceCount > 1 then { g with diceCount := g.diceCount - 1 } else g

/-- The click handler of a `.color-option`, as far as it changes `Game`. -/
def pickColor (color : String) (g : Game K) : Game K :=
  { g with diceColor := color, diceManager := g.diceManager.updateDiceColor color }

/-- What can happen to a `Game`: a click on one of its controls, the run of
the oldest pending `setTimeout` callback, or an animation frame. -/
inductive Action (K : Type) where
  | roll (rand : Nat → K)
  | reset
  | timerFire
  | frame (phys : Nat → Vec3 K × Quat K)
  | inc
  | dec
  | color (c : String)

/-- One event. A timer callback runs only when one is pending; it then leaves
the pending set and calls `checkResult`. -/
def step (setFromEuler : K → K → K → Quat K) (g : Game K) : Action K → Game K
  | .roll rand => rollDice setFromEuler rand g
  | .reset => resetDice g
  | .timerFire =>
      if g.pendingTimers = 0 then g
      else checkResult { g with pendingTimers := g.pendingTimers - 1 }
  | .frame phys => animate phys g
  | .inc => incDice g
  | .dec => decDice g
  | .color c => pickColor c g

/-- The state after a sequence of events. -/
def run (setFromEuler : K → K → K → Quat K) (g : Game K) (acts : List (Action K)) : Game K :=
  acts.foldl (step setFromEuler) g

/-- The facts every event keeps: the stepper range, the history capacity, and
a pending timer under every roll in progress. -/
def Inv (g : Game K) : Prop :=
  1 ≤ g.diceCount ∧ g.diceCount ≤ 5 ∧ g.history.length ≤ 10 ∧
    (g.isRolling = true → 1 ≤ g.pendingTimers)

end Session

/-! ### The loop returns its start value or a table entry -/

theorem foldl_resolveStep_snd {F : Type} [Add F] [Sub F] [Mul F] [OfNat F 0] [OfNat F 1]
    [OfNat F 2] [LT F] [DecidableRel (fun a b : F => a < b)]
    (q : Quat F) (P : Nat → Prop) (l : List (Nat × Vec3 F))
    (acc : F × Nat) (h0 : P acc.2) (hl : ∀ e ∈ l, P (faceValues.getD e.1 0)) :
    P (l.foldl (resolveStep q) acc).2 := by
  induction l generalizing acc with
  | nil => exact h0
  | cons a t ih =>
    rw [List.foldl_cons]
    apply ih
    · unfold resolveStep
      by_cases h : upDot q a.2 > acc.1
      · simp only [h, if_true]
        exact hl a (List.mem_cons_self _ _)
      · simp only [h, if_false]
        exact h0
    · intro e he
      exact hl e (List.mem_cons_of_mem _ he)

/-! ### History -/

theorem addHistory_eq_take (h : List Nat) (v : Nat) (hlen : h.length ≤ 10) :
    addHistory h v = (v :: h).take 10 := by
  unfold addHistory
  by_cases hc : (v :: h).length > 10
  · have h10 : (v :: h).length - 1 = 10 := by
      simp only [List.length_cons] at hc ⊢
      omega
    simp only [hc, if_true, List.dropLast_eq_take, h10]
  · have hle : (v :: h).length ≤ 10 := not_lt.mp hc
    simp only [hc, if_false]
    exact (List.take_of_length_le hle).symm

theorem take_append_take (n : Nat) (a b : List Nat) :
    (a ++ b.take n).take n = (a ++ b).take n := by
  rw [List.take_append_eq_append_take, List.take_append_eq_append_take, List.take_take]
  congr 2
  omega

theorem foldl_addHistory (ts h : List Nat) (hlen : h.length ≤ 10) :
    ts.foldl addHistory h = (ts.reverse ++ h).take 10 := by
  induction ts generalizing h with
  | nil => simpa using (List.take_of_length_le hlen).symm
  | cons t ts ih =>
    have hstep : (addHistory h t).length ≤ 10 := by
      rw [addHistory_eq_take h t hlen]
      exact List.length_take_le _ _
    rw [List.foldl_cons, ih _ hstep, addHistory_eq_take h t hlen, take_append_take]
    simp

/-! ### Roll session -/

section SessionLemmas

variable {K : Type} [LinearOrderedField K]

theorem foldl_push_eq_map {α : Type} (f : Nat → α) (xs : List Nat) (l : List α) :
    xs.foldl (fun els i => els ++ [f i]) l = l ++ xs.map f := by
  induction xs generalizing l with
  | nil => simp
  | cons x xs ih => simp [ih]

/-- What `rollDice` does when no roll is in progress. -/
theorem rollDice_idle (eu : K → K → K → Quat K) (rand : Nat → K) (g : Game K)
    (h : g.isRolling = false) :
    rollDice eu rand g =
      { g with
        diceElements := (List.range g.diceCount.toNat).map (spawnDie eu rand g.diceManager)
        isRolling := true
        rollBtnDisabled := true
        totalScore := 0
        pendingTimers := g.pendingTimers + 1 } := by
  simp [rollDice, h, resetDice, foldl_push_eq_map]

/-- What `rollDice` does while a roll is in progress. -/
theorem rollDice_rolling (eu : K → K → K → Quat K) (rand : Nat → K) (g : Game K)
    (h : g.isRolling = true) : rollDice eu rand g = g := by
  simp [rollDice, h]

omit [LinearOrderedField K] in
theorem Inv_new (score : Nat) (disabled : Bool) : Inv (Game.new score disabled : Game K) := by
  simp [Inv, Game.new]

theorem addHistory_length_le (h : List Nat) (v : Nat) (hlen : h.length ≤ 10) :
    (addHistory h v).length ≤ 10 := by
  rw [addHistory_eq_take h v hlen]
  exact List.length_take_le _ _

theorem Inv_step (eu : K → K → K → Quat K) (g : Game K) (a : Action K) (hg : Inv g) :
    Inv (step eu g a) := by
  obtain ⟨h1, h5, hh, ht⟩ := hg
  cases a with
  | roll rand =>
    cases hr : g.isRolling with
    | true =>
      simp only [step, rollDice_rolling eu rand g hr]
      exact ⟨h1, h5, hh, ht⟩
    | false =>
      simp only [step, rollDice_idle eu rand g hr]
      exact ⟨h1, h5, hh, fun _ => Nat.le_add_left _ _⟩
  | reset => exact ⟨h1, h5, hh, fun h => by simp [step, resetDice] at h⟩
  | timerFire =>
    by_cases hp : g.pendingTimers = 0
    · simp only [step, hp, if_true]
      exact ⟨h1, h5, hh, fun h => by have := ht h; omega⟩
    · simp only [step, hp, if_false]
      exact ⟨h1, h5, addHistory_length_le _ _ hh, fun h => by simp [checkResult] at h⟩
  | frame phys => exact ⟨h1, h5, hh, ht⟩
  | inc =>
    by_cases hc : g.diceCount < 5
    · simp only [step, incDice, hc, if_true]
      exact ⟨by show 1 ≤ g.diceCount + 1; omega, by show g.diceCount + 1 ≤ 5; omega, hh, ht⟩
    · simp only [step, incDice, hc, if_false]
      exact ⟨h1, h5, hh, ht⟩
  | dec =>
    by_cases hc : g.diceCount > 1
    · simp only [step, decDice, hc, if_true]
      exact ⟨by show 1 ≤ g.diceCount - 1; omega, by show g.diceCount - 1 ≤ 5; omega, hh, ht⟩
    · simp only [step, decDice, hc, if_false]
      exact ⟨h1, h5, hh, ht⟩
  | color c => exact ⟨h1, h5, hh, ht⟩

theorem Inv_run (eu : K → K → K → Quat K) (acts : List (Action K)) (g : Game K) (hg : Inv g) :
    Inv (run eu g acts) := by
  induction acts generalizing g with
  | nil => exact hg
  | cons a acts ih => exact ih _ (Inv_step eu g a hg)

end SessionLemmas

/-! ## The claims -/

section Claims

variable {K : Type} [LinearOrderedField K]

/-- C2: the face table is a bijection from the six distinct directions onto
the values 1..6, and every entry's opposite direction is in the table with the
value 7 minus the entry's value. -/
theorem faceTable_bijection_opposite_sum_seven :
    (directions (K := K)).Nodup ∧ (directions (K := K)).length = faceValues.length ∧
    faceValues.Nodup ∧ (∀ v : Nat, v ∈ faceValues ↔ 1 ≤ v ∧ v ≤ 6) ∧
    ∀ (k : Nat) (dk : Vec3 K) (vk : Nat),
      directions[k]? = some dk → faceValues[k]? = some vk →
      ∃ j : Nat, directions[j]? = some dk.negate ∧ faceValues[j]? = some (7 - vk) ∧
        vk + (7 - vk) = 7 := by
  refine ⟨?_, rfl, by decide, ?_, ?_⟩
  · simp only [directions, List.nodup_cons, List.mem_cons, Vec3.mk.injEq, List.mem_singleton,
      List.not_mem_nil, List.nodup_nil]
    norm_num
  · intro v
    simp only [faceValues, List.mem_cons, List.mem_singleton, List.not_mem_nil, or_false]
    omega
  · intro k dk vk hdk hvk
    have hlen : k < 6 := by
      have := (List.getElem?_eq_some_iff.mp hvk).1
      simpa [faceValues] using this
    interval_cases k <;> simp [directions, faceValues] at hdk hvk <;> subst hdk hvk
    · exact ⟨1, by simp [directions, Vec3.negate], by simp [faceValues], rfl⟩
    · exact ⟨0, by simp [directions, Vec3.negate], by simp [faceValues], rfl⟩
    · exact ⟨3, by simp [directions, Vec3.negate], by simp [faceValues], rfl⟩
    · exact ⟨2, by simp [directions, Vec3.negate], by simp [faceValues], rfl⟩
    · exact ⟨5, by simp [directions, Vec3.negate], by simp [faceValues], rfl⟩
    · exact ⟨4, by simp [directions, Vec3.negate], by simp [faceValues], rfl⟩

/-- C3: for every theme colour and every box face `k` in 0..5, the material of
face `k` of a fresh mesh carries the texture `textures[faceOrderMapping[k] - 1]`,
that texture was drawn from `points[faceOrderMapping[k]]`, and the number of
its pips is the value `faceValues[k]` the resolver reports for direction `k`. -/
theorem rendered_pips_eq_faceValues (color : String) (k : Nat) (hk : k < 6) :
    ∃ (val : Nat) (t : Texture),
      faceOrderMapping[k]? = some val ∧
      ((DiceManager.new color).createDiceMesh (K := K)).materials[k]? = some { map := some t } ∧
      (createDiceTextures color)[val - 1]? = some t ∧
      points[val]? = some t.pips ∧
      faceValues[k]? = some t.pips.length := by
  interval_cases k <;>
    simp [DiceManager.new, DiceManager.createDiceMesh, createDiceTextures, faceOrderMapping,
      points, faceValues, List.range']

/-- Witness of C3: face 0 (+X) of a die in the default colour. -/
theorem rendered_pips_eq_faceValues_witness :
    (0 : Nat) < 6 ∧
    ∃ (val : Nat) (t : Texture),
      faceOrderMapping[0]? = some val ∧
      ((DiceManager.new defaultColor).createDiceMesh (K := ℚ)).materials[0]? =
        some { map := some t } ∧
      (createDiceTextures defaultColor)[val - 1]? = some t ∧
      points[val]? = some t.pips ∧
      faceValues[0]? = some t.pips.length :=
  ⟨by decide, rendered_pips_eq_faceValues defaultColor 0 (by decide)⟩

/-- C4: `getDiceValue` is a total function and its result lies in 1..6, for
every quaternion over every number type with the operations the code uses,
whatever they compute (exact or rounded), and so for every unit quaternion. -/
theorem getDiceValue_in_one_to_six {F : Type} [Add F] [Sub F] [Mul F] [Neg F]
    [OfNat F 0] [OfNat F 1] [OfNat F 2] [LT F] [DecidableRel (fun a b : F => a < b)]
    (q : Quat F) : 1 ≤ getDiceValue q ∧ getDiceValue q ≤ 6 := by
  unfold getDiceValue resolveLoop
  apply foldl_resolveStep_snd q (fun n => 1 ≤ n ∧ n ≤ 6)
  · exact ⟨le_refl 1, by norm_num⟩
  · intro e he
    simp only [directions, List.enum, List.enumFrom, List.mem_cons, List.mem_singleton,
      List.not_mem_nil, or_false] at he
    rcases he with rfl | rfl | rfl | rfl | rfl | rfl <;> simp [faceValues]

/-- C5: from the empty history, after `addHistory` of `t1 .. tN` in that order
the history is the last `min N 10` totals, most recent first: its length is
`min N 10` and its entry `i` is `t(N - i)`, the entry `N - 1 - i` of the list
counted from 0; older totals are the ones gone. -/
theorem history_most_recent_first (ts : List Nat) :
    ts.foldl addHistory [] = ts.reverse.take 10 ∧
    (ts.foldl addHistory []).length = min ts.length 10 ∧
    ∀ i : Nat, i < min ts.length 10 →
      (ts.foldl addHistory [])[i]? = ts[ts.length - 1 - i]? := by
  have h := foldl_addHistory ts [] (by simp)
  rw [List.append_nil] at h
  refine ⟨h, ?_, ?_⟩
  · rw [h, List.length_take, List.length_reverse, Nat.min_comm]
  · intro i hi
    have h10 : i < 10 := lt_of_lt_of_le hi (Nat.min_le_right _ _)
    have hlen : i < ts.length := lt_of_lt_of_le hi (Nat.min_le_left _ _)
    rw [h, List.getElem?_take_of_lt h10, List.getElem?_reverse hlen]

/-- C6, as stated, fails: a roll with `diceCount = 1`, a click on the stepper
(`diceCount = 2`) and a second roll before the timer leave one die, not two;
the second call is ignored. -/
theorem overlapping_roll_counterexample :
    (run (K := ℚ) (fun _ _ _ => ⟨0, 0, 0, 1⟩) (Game.new 0 false)
        [.roll (fun _ => 0), .inc, .roll (fun _ => 0)]).diceCount = 2 ∧
    (run (K := ℚ) (fun _ _ _ => ⟨0, 0, 0, 1⟩) (Game.new 0 false)
        [.roll (fun _ => 0), .inc, .roll (fun _ => 0)]).diceElements.length = 1 ∧
    (run (K := ℚ) (fun _ _ _ => ⟨0, 0, 0, 1⟩) (Game.new 0 false)
        [.roll (fun _ => 0), .inc, .roll (fun _ => 0)]).diceElements.length ≠ 2 := by
  decide

/-- C6, amended: a roll requested while a roll is in progress is ignored.
After `rollDice` from Idle with `diceCount = N1` and, before the timer, a
second `rollDice` with `diceCount = N2`, the second call has changed nothing:
one roll is in progress, it holds the `N1` dice of the first call, and only
the first call's timer was added. -/
theorem overlapping_roll_is_ignored (eu : K → K → K → Quat K) (r1 r2 : Nat → K)
    (g : Game K) (n2 : Int) (h : g.isRolling = false) :
    rollDice eu r2 { rollDice eu r1 g with diceCount := n2 } =
      { rollDice eu r1 g with diceCount := n2 } ∧
    (rollDice eu r2 { rollDice eu r1 g with diceCount := n2 }).isRolling = true ∧
    (rollDice eu r2 { rollDice eu r1 g with diceCount := n2 }).diceElements.length =
      g.diceCount.toNat ∧
    (rollDice eu r2 { rollDice eu r1 g with diceCount := n2 }).diceElements =
      (rollDice eu r1 g).diceElements ∧
    (rollDice eu r2 { rollDice eu r1 g with diceCount := n2 }).pendingTimers =
      g.pendingTimers + 1 := by
  have hr : ({ rollDice eu r1 g with diceCount := n2 } : Game K).isRolling = true := by
    simp [rollDice_idle eu r1 g h]
  rw [rollDice_rolling eu r2 _ hr]
  refine ⟨rfl, hr, ?_, rfl, ?_⟩
  · simp [rollDice_idle eu r1 g h]
  · simp [rollDice_idle eu r1 g h]

/-- Witness of the amended C6: from the constructor state (one die), second
call with `diceCount = 2`. -/
theorem overlapping_roll_is_ignored_witness :
    (Game.new 0 false : Game ℚ).isRolling = false ∧
    (rollDice (fun _ _ _ => ⟨0, 0, 0, 1⟩) (fun _ => 0)
      { rollDice (fun _ _ _ => ⟨0, 0, 0, 1⟩) (fun _ => 0) (Game.new 0 false : Game ℚ) with
        diceCount := 2 }).diceElements.length = (1 : Int).toNat :=
  ⟨rfl, (overlapping_roll_is_ignored (fun _ _ _ => ⟨0, 0, 0, 1⟩) (fun _ => 0) (fun _ => 0)
      (Game.new 0 false : Game ℚ) 2 rfl).2.2.1⟩

/-- C7, the code at the failing run roll, reset, timer: after the reset the
state is Idle (flag down, no dice, total 0) with an empty history and the first
roll's timer still pending; when that timer fires, `checkResult` sums the empty
dice list and records the total 0 in the history, a result for the roll that
was torn down. -/
theorem stale_timer_records_zero :
    (run (K := ℚ) (fun _ _ _ => ⟨0, 0, 0, 1⟩) (Game.new 0 false)
        [.roll (fun _ => 0), .reset]).isRolling = false ∧
    (run (K := ℚ) (fun _ _ _ => ⟨0, 0, 0, 1⟩) (Game.new 0 false)
        [.roll (fun _ => 0), .reset]).diceElements.length = 0 ∧
    (run (K := ℚ) (fun _ _ _ => ⟨0, 0, 0, 1⟩) (Game.new 0 false)
        [.roll (fun _ => 0), .reset]).totalScore = 0 ∧
    (run (K := ℚ) (fun _ _ _ => ⟨0, 0, 0, 1⟩) (Game.new 0 false)
        [.roll (fun _ => 0), .reset]).history = [] ∧
    (run (K := ℚ) (fun _ _ _ => ⟨0, 0, 0, 1⟩) (Game.new 0 false)
        [.roll (fun _ => 0), .reset]).pendingTimers = 1 ∧
    (run (K := ℚ) (fun _ _ _ => ⟨0, 0, 0, 1⟩) (Game.new 0 false)
        [.roll (fun _ => 0), .reset, .timerFire]).history = [0] ∧
    (run (K := ℚ) (fun _ _ _ => ⟨0, 0, 0, 1⟩) (Game.new 0 false)
        [.roll (fun _ => 0), .reset, .timerFire]).history ≠
      (run (K := ℚ) (fun _ _ _ => ⟨0, 0, 0, 1⟩) (Game.new 0 false)
        [.roll (fun _ => 0), .reset]).history := by
  decide

/-- C8, the code at the failing run roll, reset, roll: two timers are pending
under one roll in progress; the first roll's timer fires and resolves the
second roll at once (flag down, total 3 in the history) while the second
roll's own timer is still pending, and that one records the roll a second
time. -/
theorem reset_then_roll_two_timers :
    (run (K := ℚ) (fun _ _ _ => ⟨0, 0, 0, 1⟩) (Game.new 0 false)
        [.roll (fun _ => 0), .reset, .roll (fun _ => 0)]).pendingTimers = 2 ∧
    (run (K := ℚ) (fun _ _ _ => ⟨0, 0, 0, 1⟩) (Game.new 0 false)
        [.roll (fun _ => 0), .reset, .roll (fun _ => 0)]).isRolling = true ∧
    (run (K := ℚ) (fun _ _ _ => ⟨0, 0, 0, 1⟩) (Game.new 0 false)
        [.roll (fun _ => 0), .reset, .roll (fun _ => 0), .timerFire]).isRolling = false ∧
    (run (K := ℚ) (fun _ _ _ => ⟨0, 0, 0, 1⟩) (Game.new 0 false)
        [.roll (fun _ => 0), .reset, .roll (fun _ => 0), .timerFire]).history = [3] ∧
    (run (K := ℚ) (fun _ _ _ => ⟨0, 0, 0, 1⟩) (Game.new 0 false)
        [.roll (fun _ => 0), .reset, .roll (fun _ => 0), .timerFire]).pendingTimers = 1 ∧
    (run (K := ℚ) (fun _ _ _ => ⟨0, 0, 0, 1⟩) (Game.new 0 false)
        [.roll (fun _ => 0), .reset, .roll (fun _ => 0), .timerFire, .timerFire]).history =
      [3, 3] ∧
    (run (K := ℚ) (fun _ _ _ => ⟨0, 0, 0, 1⟩) (Game.new 0 false)
        [.roll (fun _ => 0), .reset, .roll (fun _ => 0), .timerFire, .timerFire]).pendingTimers =
      0 := by
  have hval : getDiceValue (⟨0, 0, 0, 1⟩ : Quat ℚ) = 3 := by
    norm_num [getDiceValue, resolveLoop, directions, List.enum, List.enumFrom, resolveStep,
      upDot, Vec3.applyQuaternion, Vec3.dot, worldUp, faceValues]
  simp [run, step, rollDice, resetDice, checkResult, addHistory, Game.new, spawnDie,
    DiceManager.createDiceMesh, List.range, List.range.loop, hval]

/-- C9, as stated, fails: `rollDice` with `diceCount = 0` spawns no die, not
one, and with `diceCount = 8` it spawns eight dice, not five. -/
theorem no_clamp_counterexample :
    (rollDice (K := ℚ) (fun _ _ _ => ⟨0, 0, 0, 1⟩) (fun _ => 0)
        { (Game.new 0 false : Game ℚ) with diceCount := 0 }).diceElements.length = 0 ∧
    (rollDice (K := ℚ) (fun _ _ _ => ⟨0, 0, 0, 1⟩) (fun _ => 0)
        { (Game.new 0 false : Game ℚ) with diceCount := 0 }).diceElements.length ≠ 1 ∧
    (rollDice (K := ℚ) (fun _ _ _ => ⟨0, 0, 0, 1⟩) (fun _ => 0)
        { (Game.new 0 false : Game ℚ) with diceCount := 8 }).diceElements.length = 8 ∧
    (rollDice (K := ℚ) (fun _ _ _ => ⟨0, 0, 0, 1⟩) (fun _ => 0)
        { (Game.new 0 false : Game ℚ) with diceCount := 8 }).diceElements.length ≠ 5 := by
  decide

/-- C9, amended: `rollDice` does not clamp; started from Idle with
`diceCount = n` it spawns `n` dice (none for `n ≤ 0`). The range is kept by the
stepper: in every state reached from the constructor state `diceCount` is in
1..5, so a roll started there spawns `diceCount = min (max diceCount 1) 5`
dice. -/
theorem roll_spawns_diceCount (eu : K → K → K → Quat K) (rand : Nat → K) :
    (∀ g : Game K, g.isRolling = false →
      (rollDice eu rand g).diceElements.length = g.diceCount.toNat) ∧
    ∀ (score : Nat) (disabled : Bool) (acts : List (Action K)),
      1 ≤ (run eu (Game.new score disabled) acts).diceCount ∧
      (run eu (Game.new score disabled) acts).diceCount ≤ 5 ∧
      ((run eu (Game.new score disabled) acts).isRolling = false →
        ((rollDice eu rand (run eu (Game.new score disabled) acts)).diceElements.length : Int) =
          min (max (run eu (Game.new score disabled) acts).diceCount 1) 5) := by
  have hlen : ∀ g : Game K, g.isRolling = false →
      (rollDice eu rand g).diceElements.length = g.diceCount.toNat := by
    intro g h
    simp [rollDice_idle eu rand g h]
  refine ⟨hlen, ?_⟩
  intro score disabled acts
  obtain ⟨h1, h5, -, -⟩ := Inv_run eu acts _ (Inv_new (K := K) score disabled)
  refine ⟨h1, h5, fun h => ?_⟩
  rw [hlen _ h, max_eq_left h1, min_eq_left h5]
  exact Int.toNat_of_nonneg (by omega)

/-- C10, as stated, fails: in a roll of four dice the fourth (index 3) starts
at height `5 + 2 * 3 = 11`, above the ceiling plane at `y = 10`. -/
theorem spawn_above_ceiling_counterexample :
    ∃ d : DiceElement ℚ,
      (rollDice (K := ℚ) (fun _ _ _ => ⟨0, 0, 0, 1⟩) (fun _ => 0)
        { (Game.new 0 false : Game ℚ) with diceCount := 4 }).diceElements[3]? = some d ∧
      d.body.position.y = 11 ∧ ¬ insideArena d.body.position := by
  refine ⟨spawnDie (fun _ _ _ => ⟨0, 0, 0, 1⟩) (fun _ => 0) (DiceManager.new defaultColor) 3,
    by rfl, by norm_num [spawnDie], by norm_num [insideArena, spawnDie, ceilingY]⟩

/-- C10, amended: for every dice count in 1..5, every die index `i` below it
and every draw in `[0, 1)`, die `i` of the roll starts at
`((r1 - 0.5) * 4, 5 + 2 i, (r2 - 0.5) * 4)` with `|x| < 4.5`, `|z| < 4.5` and
`0 < y`; and `y < 10` for the dice with index `i ≤ 2`, which are strictly
inside the arena. -/
theorem spawn_position_bounds (eu : K → K → K → Quat K) (rand : Nat → K) (g : Game K)
    (i : Nat) (hidle : g.isRolling = false) (h1 : 1 ≤ g.diceCount) (h5 : g.diceCount ≤ 5)
    (hi : (i : Int) < g.diceCount) (hr : ∀ j, 0 ≤ rand j ∧ rand j < 1) :
    ∃ d : DiceElement K,
      (rollDice eu rand g).diceElements[i]? = some d ∧
      d.body.position =
        ⟨(rand (11 * i + 0) - 1 / 2) * 4, 5 + (i : K) * 2, (rand (11 * i + 1) - 1 / 2) * 4⟩ ∧
      |d.body.position.x| < wallSize ∧ |d.body.position.z| < wallSize ∧
      0 < d.body.position.y ∧
      (i ≤ 2 → d.body.position.y < ceilingY ∧ insideArena d.body.position) := by
  have hin : i < g.diceCount.toNat := by omega
  have hx := hr (11 * i + 0)
  have hz := hr (11 * i + 1)
  have hi0 : (0 : K) ≤ (i : K) := Nat.cast_nonneg i
  have hxb : |(rand (11 * i + 0) - 1 / 2) * 4| < (9 / 2 : K) := by
    rw [abs_lt]; constructor <;> linarith [hx.1, hx.2]
  have hzb : |(rand (11 * i + 1) - 1 / 2) * 4| < (9 / 2 : K) := by
    rw [abs_lt]; constructor <;> linarith [hz.1, hz.2]
  have hy0 : (0 : K) < 5 + (i : K) * 2 := by linarith
  have hy10 : i ≤ 2 → 5 + (i : K) * 2 < 10 := by
    intro h2
    have : (i : K) ≤ 2 := by exact_mod_cast h2
    linarith
  refine ⟨spawnDie eu rand g.diceManager i, ?_, rfl, hxb, hzb, hy0, ?_⟩
  · rw [rollDice_idle eu rand g hidle]
    simp only [List.getElem?_map, List.getElem?_range hin, Option.map_some']
  · intro h2
    exact ⟨hy10 h2, hxb, hzb, hy0, hy10 h2⟩

/-- Witness of the amended C10: the third of three dice, all draws 1/4. -/
theorem spawn_position_bounds_witness :
    ({ (Game.new 0 false : Game ℚ) with diceCount := 3 }).isRolling = false ∧
    ((2 : Nat) : Int) < ({ (Game.new 0 false : Game ℚ) with diceCount := 3 }).diceCount ∧
    (∀ j : Nat, (0 : ℚ) ≤ (fun _ => 1 / 4) j ∧ (fun _ => (1 / 4 : ℚ)) j < 1) ∧
    ∃ d : DiceElement ℚ,
      (rollDice (fun _ _ _ => ⟨0, 0, 0, 1⟩) (fun _ => 1 / 4)
        { (Game.new 0 false : Game ℚ) with diceCount := 3 }).diceElements[2]? = some d ∧
      d.body.position = ⟨-1, 9, -1⟩ ∧ insideArena d.body.position := by
  have hdraw : ∀ j : Nat, (0 : ℚ) ≤ (fun _ => 1 / 4) j ∧ (fun _ => (1 / 4 : ℚ)) j < 1 :=
    fun _ => by norm_num
  obtain ⟨d, hd, hpos, -, -, -, hin⟩ :=
    spawn_position_bounds (K := ℚ) (fun _ _ _ => ⟨0, 0, 0, 1⟩) (fun _ => 1 / 4)
      { (Game.new 0 false : Game ℚ) with diceCount := 3 } 2 rfl (by decide) (by decide)
      (by decide) hdraw
  refine ⟨rfl, by decide, hdraw, d, hd, ?_, (hin (by decide)).2⟩
  rw [hpos]
  norm_num

end Claims

end GameBone
